import Mathlib

set_option maxRecDepth 8000

/-!
Shallow embedding of `src/main.rs` (notionstar): a batch job that mirrors the
authenticated user's starred GitHub repositories into a Notion database,
creating a page per new star, archiving pages whose star disappeared, and
patching the freshness date properties ("上次release" / "上次commit") of the
surviving pages.

External collaborators (the GitHub API, the Notion API and the HTTP transport)
are modelled by an `Env` of oracles: the pages the star listing yields, the
per-repo release/commit lookup results, and the per-record outcome of each
create/archive/patch call.  A Rust `.unwrap()` panic is modelled as
`Except.error ()`: it aborts the whole process (non-zero exit).  Mirror-store
writes are modelled on an explicit `MirrorState`, and every mutation request
that reaches the store is recorded in a `MutCall` trace.
-/

namespace NotionStar

/-- Calendar date (`chrono::NaiveDate`), modelled as an integer day number. -/
abbrev Date := Int

/-- The fields of `octocrab::models::Repository` that `main.rs` reads.
`owner` stands for `owner.unwrap().login` and `html_url` for
`html_url.unwrap().to_string()`: the two `Option` fields are modelled as
present, since the program unconditionally unwraps them for every repo. -/
structure Repository where
  name : String
  owner : String
  html_url : String
deriving DecidableEq

/-- A Notion property value, restricted to the variants `main.rs` reads or
writes: `Title`, `Url`, `Text` (rich text collapsed to its plain string) and
`Date` (a `DateValue` whose `start` is a plain date). -/
inductive PropertyValue where
  | title (text : String)
  | url (url : Option String)
  | text (text : String)
  | date (date : Option Date)
deriving DecidableEq

/-- A page of the Notion database.  `title` is what `page.title().unwrap()`
returns (the plain text of the page's title property); `props` is the
`properties.properties` map, modelled as an association list keyed by the
property name; `archived` is the soft-delete flag. -/
structure NotionPage where
  id : Nat
  title : String
  props : List (String × PropertyValue)
  archived : Bool
deriving DecidableEq

/-- The state of the Notion database: its pages, and the id the store will
assign to the next created page. -/
structure MirrorState where
  pages : List NotionPage
  nextId : Nat
deriving DecidableEq

/-- The field of `octocrab::models::repos::Release` that `main.rs` reads:
`published_at` (an optional timestamp, reduced to its date). -/
structure Release where
  published_at : Option Date
deriving DecidableEq

/-- The `commit.committer` author record: its optional `date`. -/
structure GitCommitter where
  date : Option Date
deriving DecidableEq

/-- One entry of a `list_commits` result; `committer` stands for the Rust
`commit.commit.committer`, which is an `Option` the code unwraps. -/
structure CommitEntry where
  committer : Option GitCommitter
deriving DecidableEq

/-- Outcome of one HTTP mutation request sent with `reqwest`:
`success` (2xx), `httpError` (response received, non-success status: the code
prints the body and goes on), `transportError` (`send().await` fails: the
code's `.unwrap()` panics). -/
inductive HttpOutcome where
  | success
  | httpError
  | transportError
deriving DecidableEq

/-- The external world of one run: what the collaborators answer.
`starPages` is the sequence of pages the GitHub star listing yields
(`.error` if some page request fails, which the code's `.unwrap()` turns into
a panic); `dbOk` says whether the Notion database queries succeed;
`releases`/`commits` give the per-repo lookup results (keyed by owner login
and repo name); `createOutcome` says whether `create_page` succeeds for a
given repo name (on failure the code's `.unwrap()` panics);
`archiveOutcome`/`patchOutcome` give the HTTP outcome of the archive/patch
request for a given page id. -/
structure Env where
  starPages : Except Unit (List (List Repository))
  dbOk : Bool
  releases : String → String → Except Unit Release
  commits : String → String → Except Unit (List CommitEntry)
  createOutcome : String → Bool
  archiveOutcome : Nat → HttpOutcome
  patchOutcome : Nat → HttpOutcome

/-- One mutation request that reached the mirror store. -/
inductive MutCall where
  | create (name : String)
  | archive (id : Nat)
  | patch (id : Nat) (body : List (String × PropertyValue))
deriving DecidableEq

/-- Result of a completed run: the final mirror state, the trace of mutation
calls, and the titles of the pages the freshness-check loop visited. -/
structure RunResult where
  state : MirrorState
  calls : List MutCall
  checked : List String
deriving DecidableEq

/-- Decidable equality for `Except`, used to settle concrete run results. -/
def exceptDecEq {ε α : Type} [DecidableEq ε] [DecidableEq α] :
    (a b : Except ε α) → Decidable (a = b)
  | .error e, .error f =>
    if h : e = f then .isTrue (by rw [h])
    else .isFalse (fun hh => h (by cases hh; rfl))
  | .error _, .ok _ => .isFalse (fun hh => Except.noConfusion hh)
  | .ok _, .error _ => .isFalse (fun hh => Except.noConfusion hh)
  | .ok a, .ok b =>
    if h : a = b then .isTrue (by rw [h])
    else .isFalse (fun hh => h (by cases hh; rfl))

instance {ε α : Type} [DecidableEq ε] [DecidableEq α] :
    DecidableEq (Except ε α) := exceptDecEq

/-- Association-list lookup by property/key name (the `HashMap::get` of the
Rust code). -/
def alookup {β : Type} (k : String) : List (String × β) → Option β
  | [] => none
  | e :: rest => if e.1 = k then some e.2 else alookup k rest

/-- Insert-or-overwrite one key of an association list (the semantics of a
`HashMap` insert, and of the Notion store updating one property). -/
def upsertProp {β : Type} (props : List (String × β)) (kv : String × β) :
    List (String × β) :=
  if (alookup kv.1 props).isSome then
    props.map (fun e => if e.1 = kv.1 then kv else e)
  else props ++ [kv]

/-- Apply a patch body to a property map: each supplied property is written,
every other property is left alone (Notion partial-update semantics). -/
def applyPatchBody (props : List (String × PropertyValue))
    (body : List (String × PropertyValue)) : List (String × PropertyValue) :=
  body.foldl upsertProp props

/-- Add a key with a default value unless it is already present. -/
def ensureProp (k : String) (v : PropertyValue)
    (props : List (String × PropertyValue)) : List (String × PropertyValue) :=
  if (alookup k props).isSome then props else props ++ [(k, v)]

/-- The Notion store returns every database column for every page: a date
column a create request did not supply comes back as a `Date` property with a
null value.  This completes a created page's property map with the two
freshness columns the program later reads. -/
def completeSchema (props : List (String × PropertyValue)) :
    List (String × PropertyValue) :=
  ensureProp "上次release" (PropertyValue.date none)
    (ensureProp "上次commit" (PropertyValue.date none) props)

/-- `Notion::new_data`, property-construction part: the `Properties` map of a
create request — the title property `名称`, the repo URL under the key
`release`, and the owner login under `owner`.  The rich-text wrapper built by
`text()` is collapsed to its plain string.  Note that no freshness date
property is supplied. -/
def new_data (name release owner : String) : List (String × PropertyValue) :=
  [("名称", PropertyValue.title name),
   ("release", PropertyValue.url (some release)),
   ("owner", PropertyValue.text owner)]

/-- Extract the plain text of the title property of a create request (what
`page.title()` will later return for the created page). -/
def titleOf (props : List (String × PropertyValue)) : String :=
  match alookup "名称" props with
  | some (PropertyValue.title t) => t
  | _ => ""

/-- The page the store materialises for a create request. -/
def pageOf (id : Nat) (props : List (String × PropertyValue)) : NotionPage :=
  { id := id, title := titleOf props, props := completeSchema props,
    archived := false }

/-- The store side of `create_page`: append a fresh page built from the
request and return it. -/
def createPage (s : MirrorState) (props : List (String × PropertyValue)) :
    MirrorState × NotionPage :=
  ({ pages := s.pages ++ [pageOf s.nextId props], nextId := s.nextId + 1 },
   pageOf s.nextId props)

/-- `Notion::new_data`, api-call part: `create_page(...).await.unwrap()` — on
a failed create the `.unwrap()` panics (`.error`), aborting the run. -/
def newDataCall (env : Env) (s : MirrorState) (name release owner : String) :
    Except Unit (MirrorState × NotionPage) :=
  match env.createOutcome name with
  | true => .ok (createPage s (new_data name release owner))
  | false => .error ()

/-- `Notion::add_repo`: create one page per repo, sequentially, in order
(`_add_repo` inlined: it passes `name`, `html_url.unwrap()`,
`owner.unwrap().login` to `new_data`).  A failed create panics and aborts the
remainder of the batch. -/
def add_repo (env : Env) :
    MirrorState → List Repository → Except Unit (MirrorState × List MutCall)
  | s, [] => .ok (s, [])
  | s, star :: rest =>
    match newDataCall env s star.name star.html_url star.owner with
    | .error e => .error e
    | .ok (s1, _page) =>
      match add_repo env s1 rest with
      | .error e => .error e
      | .ok (s2, calls) => .ok (s2, MutCall.create star.name :: calls)

/-- The store side of a successful archive request: set `archived := true` on
the page with the given id. -/
def archiveOnePage (s : MirrorState) (id : Nat) : MirrorState :=
  { s with
    pages := s.pages.map
      (fun p => if p.id = id then { p with archived := true } else p) }

/-- `Notion::archive_repo`: one `PATCH {"archived": true}` per page,
sequentially.  A transport failure (`send().await.unwrap()`) panics; a
non-success status is only printed and the loop continues with the next
page. -/
def archive_repo (env : Env) :
    MirrorState → List NotionPage → Except Unit (MirrorState × List MutCall)
  | s, [] => .ok (s, [])
  | s, page :: rest =>
    match env.archiveOutcome page.id with
    | .transportError => .error ()
    | .httpError =>
      match archive_repo env s rest with
      | .error e => .error e
      | .ok (s2, calls) => .ok (s2, MutCall.archive page.id :: calls)
    | .success =>
      match archive_repo env (archiveOnePage s page.id) rest with
      | .error e => .error e
      | .ok (s2, calls) => .ok (s2, MutCall.archive page.id :: calls)

/-- The store side of a successful property patch: apply the body to the
matching page's property map. -/
def patchPage (s : MirrorState) (id : Nat)
    (body : List (String × PropertyValue)) : MirrorState :=
  { s with
    pages := s.pages.map
      (fun p => if p.id = id then { p with props := applyPatchBody p.props body }
                else p) }

/-- The body `Notion::update_date` builds: the `上次release` date property
when a release argument is supplied, and — as written in the source — the
property key `上次Commit` (capital C) when a commit argument is supplied. -/
def updateDateBody (release commit : Option Date) :
    List (String × PropertyValue) :=
  (match release with
   | some d => [("上次release", PropertyValue.date (some d))]
   | none => []) ++
  (match commit with
   | some d => [("上次Commit", PropertyValue.date (some d))]
   | none => [])

/-- `Notion::update_date`: build the body; if it is empty, return without any
request; otherwise send the patch.  A transport failure panics; a non-success
status is only printed (the state is unchanged but the call was made). -/
def update_date (env : Env) (s : MirrorState) (id : Nat)
    (release commit : Option Date) : Except Unit (MirrorState × List MutCall) :=
  if (updateDateBody release commit).isEmpty then .ok (s, [])
  else
    match env.patchOutcome id with
    | .transportError => .error ()
    | .httpError => .ok (s, [MutCall.patch id (updateDateBody release commit)])
    | .success => .ok (patchPage s id (updateDateBody release commit),
        [MutCall.patch id (updateDateBody release commit)])

/-- `Notion::get_stars`: request page 1, 2, … of the star listing and
concatenate the results until the first empty page.  No deduplication is
performed. -/
def get_stars (pages : List (List Repository)) : List Repository :=
  (pages.takeWhile (fun p => !p.isEmpty)).flatten

/-- `Notion::get_database`: query the database, following cursors until
exhausted.  Notion's query returns the non-archived pages. -/
def queryDatabase (s : MirrorState) : List NotionPage :=
  s.pages.filter (fun p => !p.archived)

/-- The `star_map` built in `main`: a `HashMap` from `star.name` to the repo,
collected from the star list in order — a later repo with the same name
overwrites an earlier one. -/
def buildStarMap : List Repository → List (String × Repository)
  | [] => []
  | star :: rest =>
    let m := buildStarMap rest
    if (alookup star.name m).isSome then m else (star.name, star) :: m

/-- The `update_stars` list of `main`: the fetched stars whose name is not
among the database page titles. -/
def update_stars (stars : List Repository) (database : List NotionPage) :
    List Repository :=
  stars.filter (fun star =>
    decide (star.name ∉ database.map (fun page => page.title)))

/-- The `delete_stars` list of `main`: the database pages whose title is not
among the keys of the star map. -/
def delete_stars (stars : List Repository) (database : List NotionPage) :
    List NotionPage :=
  database.filter (fun page =>
    decide (page.title ∉ (buildStarMap stars).map Prod.fst))

/-- The `lastupdate` computation of `main`'s loop: `Ok(release)` yields
`Some(release.published_at.unwrap()...)` — the inner `.unwrap()` panics when
a release exists but has no `published_at` — and any lookup error is
swallowed to `None`. -/
def observedRelease : Except Unit Release → Except Unit (Option Date)
  | .ok rel =>
    match rel.published_at with
    | some d => .ok (some d)
    | none => .error ()
  | .error _ => .ok none

/-- The `commit` computation of `main`'s loop: the date of the first commit's
committer (`commit.commit.committer.unwrap().date` — the `.unwrap()` panics
when the committer record is absent), `None` when the repo has no commits or
the committer has no date, and any lookup error is swallowed to `None`. -/
def observedCommit : Except Unit (List CommitEntry) → Except Unit (Option Date)
  | .ok entries =>
    match entries.head? with
    | some c =>
      match c.committer with
      | some author => .ok author.date
      | none => .error ()
    | none => .ok none
  | .error _ => .ok none

/-- The `notion_last_update` read of `main`'s loop:
`properties.get("上次release").unwrap()` — a missing property panics — then
the stored date if the property is a `Date`, `None` for any other variant. -/
def notionLastUpdate (page : NotionPage) : Except Unit (Option Date) :=
  match alookup "上次release" page.props with
  | none => .error ()
  | some (PropertyValue.date d) => .ok d
  | some _ => .ok none

/-- The `notion_commit` read of `main`'s loop: `properties.get("上次commit")`
with a missing property tolerated as `None`. -/
def notionCommit (page : NotionPage) : Option Date :=
  match alookup "上次commit" page.props with
  | some (PropertyValue.date d) => d
  | _ => none

/-- One iteration of `main`'s freshness-check loop, for one page of the
re-fetched database: look the paired star up by title
(`star_map.get(&name).unwrap()` — a missing star panics), fetch the observed
release and commit signals, compare against the stored properties, and call
`update_date` unless both deltas are `None`. -/
def freshnessStep (env : Env) (star_map : List (String × Repository))
    (s : MirrorState) (page : NotionPage) :
    Except Unit (MirrorState × List MutCall) :=
  match alookup page.title star_map with
  | none => .error ()
  | some repo =>
    match observedRelease (env.releases repo.owner page.title) with
    | .error e => .error e
    | .ok lastupdate =>
      match notionLastUpdate page with
      | .error e => .error e
      | .ok notion_last_update =>
        let release_date :=
          if lastupdate ≠ notion_last_update then lastupdate else none
        match observedCommit (env.commits repo.owner page.title) with
        | .error e => .error e
        | .ok commit =>
          let commit_date :=
            if commit ≠ notionCommit page then commit else none
          if release_date.isNone && commit_date.isNone then .ok (s, [])
          else update_date env s page.id release_date commit_date

/-- `main`'s freshness-check loop over the re-fetched database, threading the
mirror state, collecting the patch calls and the visited page titles. -/
def freshnessLoop (env : Env) (star_map : List (String × Repository)) :
    MirrorState → List NotionPage →
    Except Unit (MirrorState × List MutCall × List String)
  | s, [] => .ok (s, [], [])
  | s, page :: rest =>
    match freshnessStep env star_map s page with
    | .error e => .error e
    | .ok (s2, calls) =>
      match freshnessLoop env star_map s2 rest with
      | .error e => .error e
      | .ok (s3, moreCalls, checked) =>
        .ok (s3, calls ++ moreCalls, page.title :: checked)

/-- The whole of `main`: fetch the database and the stars (either fetch
failing aborts), create the pages for `update_stars`, archive the pages of
`delete_stars`, re-fetch the database, and run the freshness-check loop over
it. -/
def runMain (env : Env) (s0 : MirrorState) : Except Unit RunResult :=
  match env.dbOk with
  | false => .error ()
  | true =>
    match env.starPages with
    | .error e => .error e
    | .ok pages =>
      match add_repo env s0 (update_stars (get_stars pages) (queryDatabase s0)) with
      | .error e => .error e
      | .ok (s1, createCalls) =>
        match archive_repo env s1 (delete_stars (get_stars pages) (queryDatabase s0)) with
        | .error e => .error e
        | .ok (s2, archiveCalls) =>
          match freshnessLoop env (buildStarMap (get_stars pages)) s2 (queryDatabase s2) with
          | .error e => .error e
          | .ok (s3, patchCalls, checked) =>
            .ok { state := s3, calls := createCalls ++ archiveCalls ++ patchCalls,
                  checked := checked }

/-- Mirror-state evolution of a create batch in which every create call
succeeds: the state `add_repo` ends in. -/
def addPagesState : MirrorState → List Repository → MirrorState
  | s, [] => s
  | s, star :: rest =>
    addPagesState (createPage s (new_data star.name star.html_url star.owner)).1 rest

/-- The pages a fully successful create batch appends, ids starting at `n`. -/
def newPagesFrom (n : Nat) : List Repository → List NotionPage
  | [] => []
  | star :: rest =>
    pageOf n (new_data star.name star.html_url star.owner) ::
      newPagesFrom (n + 1) rest

/-- Mirror-state evolution of an archive batch in which every archive request
succeeds: the state `archive_repo` ends in. -/
def foldArchive : MirrorState → List Nat → MirrorState
  | s, [] => s
  | s, i :: rest => foldArchive (archiveOnePage s i) rest

/-- Soundness of one recorded mutation call with respect to the no-clobber
discipline: a patch call carries exactly the body `update_date` builds for
some pair of deltas that are not both absent.  Other calls are unconstrained. -/
def patchCallSound : MutCall → Prop
  | MutCall.patch _ body =>
    ∃ rd cd : Option Date,
      body = updateDateBody rd cd ∧ ¬(rd = none ∧ cd = none)
  | _ => True

/-! Concrete inputs used by the counterexample, failing-input and witness
theorems below. -/

/-- Example starred repo named `B`. -/
def repoB : Repository := { name := "B", owner := "o", html_url := "u" }

/-- Example starred repo named `C`. -/
def repoC : Repository := { name := "C", owner := "o", html_url := "u" }

/-- Example repo whose create call will be made to fail. -/
def repoR1 : Repository := { name := "r1", owner := "o", html_url := "u" }

/-- Example repo queued behind `repoR1` in the same create batch. -/
def repoR2 : Repository := { name := "r2", owner := "o", html_url := "u" }

/-- Property map of a mirror page whose two freshness columns are unset. -/
def blankProps : List (String × PropertyValue) :=
  [("上次release", PropertyValue.date none),
   ("上次commit", PropertyValue.date none)]

/-- Mirror page titled `A`, id 0, freshness columns unset. -/
def pageA : NotionPage :=
  { id := 0, title := "A", props := blankProps, archived := false }

/-- Mirror page titled `B`, id 0, freshness columns unset. -/
def pageB0 : NotionPage :=
  { id := 0, title := "B", props := blankProps, archived := false }

/-- Mirror page titled `B`, id 1, freshness columns unset. -/
def pageB1 : NotionPage :=
  { id := 1, title := "B", props := blankProps, archived := false }

/-- Mirror page titled `X`, id 1 — its title matches no star. -/
def pageX1 : NotionPage :=
  { id := 1, title := "X", props := blankProps, archived := false }

/-- Empty mirror state. -/
def exStateEmpty : MirrorState := { pages := [], nextId := 0 }

/-- Environment for the C1 failing input: one star `B`, no release, latest
commit date 5, every mutation succeeding, stable across runs. -/
def exEnvC1 : Env :=
  { starPages := .ok [[repoB]], dbOk := true,
    releases := fun _ _ => .error (),
    commits := fun _ _ => .ok [{ committer := some { date := some 5 } }],
    createOutcome := fun _ => true,
    archiveOutcome := fun _ => .success,
    patchOutcome := fun _ => .success }

/-- Mirror state for the C1 failing input: one live page for `B` with both
freshness columns unset. -/
def exStateC1 : MirrorState := { pages := [pageB0], nextId := 1 }

/-- Environment for the C2 counterexample: stars `{B, C}`, no observable
release/commit signals, every mutation succeeding. -/
def exEnvC2 : Env :=
  { starPages := .ok [[repoB, repoC]], dbOk := true,
    releases := fun _ _ => .error (),
    commits := fun _ _ => .error (),
    createOutcome := fun _ => true,
    archiveOutcome := fun _ => .success,
    patchOutcome := fun _ => .success }

/-- Mirror state for the C2 counterexample: live pages `{A, B}`. -/
def exStateC2 : MirrorState := { pages := [pageA, pageB1], nextId := 2 }

/-- Environment for the C3 counterexample: the repo's currently observed
release signal is present (date 5). -/
def exEnvC3 : Env :=
  { starPages := .ok [], dbOk := true,
    releases := fun _ _ => .ok { published_at := some 5 },
    commits := fun _ _ => .error (),
    createOutcome := fun _ => true,
    archiveOutcome := fun _ => .success,
    patchOutcome := fun _ => .success }

/-- Environment for the C4 counterexample: the create call fails exactly for
the repo named `r1`. -/
def exEnvC4 : Env :=
  { starPages := .ok [], dbOk := true,
    releases := fun _ _ => .error (),
    commits := fun _ _ => .error (),
    createOutcome := fun n => n != "r1",
    archiveOutcome := fun _ => .success,
    patchOutcome := fun _ => .success }

/-- Environment for the C9 counterexample: both collection fetches succeed
(one star `C`, database reachable) but every create call fails. -/
def exEnvC9 : Env :=
  { starPages := .ok [[repoC]], dbOk := true,
    releases := fun _ _ => .error (),
    commits := fun _ _ => .error (),
    createOutcome := fun _ => false,
    archiveOutcome := fun _ => .success,
    patchOutcome := fun _ => .success }

/-- Environment for the C10 witness: one star `B`; the archive request for
page id 1 is rejected with an error status, so that page stays live. -/
def exEnvC10 : Env :=
  { starPages := .ok [[repoB]], dbOk := true,
    releases := fun _ _ => .error (),
    commits := fun _ _ => .error (),
    createOutcome := fun _ => true,
    archiveOutcome := fun i => if i = 1 then .httpError else .success,
    patchOutcome := fun _ => .success }

/-- Mirror state for the C10 witness: live pages `B` (id 0) and `X` (id 1),
where `X` matches no star. -/
def exStateC10 : MirrorState := { pages := [pageB0, pageX1], nextId := 2 }

/-- Environment for the C6 witness: one star `B` with an observed commit
date 5, everything succeeding. -/
def wEnvC6 : Env :=
  { starPages := .ok [[repoB]], dbOk := true,
    releases := fun _ _ => .error (),
    commits := fun _ _ => .ok [{ committer := some { date := some 5 } }],
    createOutcome := fun _ => true,
    archiveOutcome := fun _ => .success,
    patchOutcome := fun _ => .success }

/-- Mirror state for the C6 witness: one live page for `B`. -/
def wStateC6 : MirrorState := { pages := [pageB0], nextId := 1 }

/-- The patch body the C6 witness run sends. -/
def wBodyC6 : List (String × PropertyValue) :=
  [("上次Commit", PropertyValue.date (some 5))]

/-- The page of the C6 witness run after its patch was applied. -/
def wPageC6 : NotionPage :=
  { id := 0, title := "B",
    props := [("上次release", PropertyValue.date none),
              ("上次commit", PropertyValue.date none),
              ("上次Commit", PropertyValue.date (some 5))],
    archived := false }

/-- The full result of the C6 witness run. -/
def wResC6 : RunResult :=
  { state := { pages := [wPageC6], nextId := 1 },
    calls := [MutCall.patch 0 wBodyC6],
    checked := ["B"] }

/-- Environment for the C7 witness: both per-repo lookups error. -/
def wEnvC7 : Env :=
  { starPages := .ok [], dbOk := true,
    releases := fun _ _ => .error (),
    commits := fun _ _ => .error (),
    createOutcome := fun _ => true,
    archiveOutcome := fun _ => .success,
    patchOutcome := fun _ => .success }

/-- Star map for the C7 witness. -/
def wMapC7 : List (String × Repository) := [("B", repoB)]

/-- Environment for the C4-amended witness: the archive request for page id 0
is rejected with an error status, later ones succeed. -/
def wEnvC4a : Env :=
  { starPages := .ok [], dbOk := true,
    releases := fun _ _ => .error (),
    commits := fun _ _ => .error (),
    createOutcome := fun _ => true,
    archiveOutcome := fun i => if i = 0 then .httpError else .success,
    patchOutcome := fun _ => .success }

/-- Archive batch for the C4-amended witness: pages with ids 0 and 1. -/
def wPagesC4a : List NotionPage := [pageA, pageX1]

/-- Mirror state for the C4-amended witness. -/
def wStateC4a : MirrorState := { pages := [pageA, pageX1], nextId := 2 }

/-- Environment for the C2-amended witness: stars `{B, C}`, no observable
signals, every mutation succeeding. -/
def wEnvC2a : Env :=
  { starPages := .ok [[repoB, repoC]], dbOk := true,
    releases := fun _ _ => .error (),
    commits := fun _ _ => .error (),
    createOutcome := fun _ => true,
    archiveOutcome := fun _ => .success,
    patchOutcome := fun _ => .success }

/-- Mirror state for the C2-amended witness: live pages `{A, B}`. -/
def wStateC2a : MirrorState := { pages := [pageA, pageB1], nextId := 2 }

/-- Environment for the C9-amended witness: a commit delta is observed for
`B` and every patch request is rejected with an error status — the run must
still complete (exit 0). -/
def wEnvC9a : Env :=
  { starPages := .ok [[repoB]], dbOk := true,
    releases := fun _ _ => .error (),
    commits := fun _ _ => .ok [{ committer := some { date := some 7 } }],
    createOutcome := fun _ => true,
    archiveOutcome := fun _ => .success,
    patchOutcome := fun _ => .httpError }

/-- Mirror state for the C9-amended witness: one live page for `B`. -/
def wStateC9a : MirrorState := { pages := [pageB0], nextId := 1 }

end NotionStar

namespace NotionStar

/-- C1.  The claim (idempotence of a full run) is the spec's intent, and the
code breaks it: `update_date` writes the commit date under the property key
`上次Commit` while the freshness check reads `上次commit`, so the stored
commit date the loop compares against never changes and the second run
re-issues the very same patch.  At the failing input (stars `{B}`, a live
mirror page for `B`, observed commit date 5, unchanged source between runs)
the first run completes and patches, and the second run again produces one
patch call instead of zero. -/
theorem c1_second_run_repatches :
    ((runMain exEnvC1 exStateC1).toOption.map (fun r => r.calls) =
      some [MutCall.patch 0 [("上次Commit", PropertyValue.date (some 5))]]) ∧
    ((runMain exEnvC1 exStateC1).toOption.bind
        (fun r => (runMain exEnvC1 r.state).toOption.map (fun r2 => r2.calls)) =
      some [MutCall.patch 0 [("上次Commit", PropertyValue.date (some 5))]]) := by
  exact ⟨by decide, by decide⟩

/-- C2, counterexample.  For mirror `{A, B}` and stars `{B, C}` the run does
perform `create(C)` and `archive(A)`, but it freshness-checks both `B` and
the newly created `C` — not `B` only — because the loop iterates the
re-fetched post-reconciliation database. -/
theorem c2_counterexample :
    ((runMain exEnvC2 exStateC2).toOption.map (fun r => (r.calls, r.checked)) =
      some ([MutCall.create "C", MutCall.archive 0], ["B", "C"])) ∧
    ((runMain exEnvC2 exStateC2).toOption.map (fun r => r.checked) ≠
      some ["B"]) := by
  exact ⟨by decide, by decide⟩

/-- C3, counterexample.  With the repo's currently observed release signal
present (`observedRelease = some 5`), the record created for it still has
both freshness fields absent: `new_data` supplies no date property at all, so
the created page's stored release and commit dates are `none`, not the
observed signals. -/
theorem c3_counterexample :
    observedRelease (exEnvC3.releases "o" "r") = .ok (some 5) ∧
    notionLastUpdate (createPage exStateEmpty (new_data "r" "u" "o")).2 =
      .ok none ∧
    notionCommit (createPage exStateEmpty (new_data "r" "u" "o")).2 = none := by
  exact ⟨rfl, by decide, by decide⟩

/-- C4, counterexample.  In a create batch `[r1, r2]` where the create call
for `r1` fails (and the one for `r2` would succeed), the failure on `r1`
aborts the whole batch — `create_page(...).unwrap()` panics — so `r2` is
never processed, contradicting the claim that a per-record mutation failure
does not abort the batch. -/
theorem c4_counterexample :
    exEnvC4.createOutcome "r2" = true ∧
    add_repo exEnvC4 exStateEmpty [repoR1, repoR2] = .error () := by
  exact ⟨rfl, by decide⟩

/-- C5, counterexample.  When the star listing returns overlapping pages
(`[[B], [B]]`), `get_stars` returns both copies: its result contains two
repos with the same name, so the fetcher does not deduplicate by name. -/
theorem c5_counterexample :
    (get_stars [[repoB], [repoB]]).map (fun r => r.name) = ["B", "B"] ∧
    ¬ ((get_stars [[repoB], [repoB]]).map (fun r => r.name)).Nodup := by
  exact ⟨by decide, by decide⟩

/-- C9, counterexample.  Both full-collection fetches succeed (the database
is reachable and the star listing yields `{C}`), yet the run exits non-zero:
the create call for `C` fails and its `.unwrap()` panics — so a non-zero exit
does not only happen when a collection fetch fails. -/
theorem c9_counterexample :
    exEnvC9.dbOk = true ∧ exEnvC9.starPages = .ok [[repoC]] ∧
    runMain exEnvC9 exStateEmpty = .error () := by
  exact ⟨rfl, rfl, by decide⟩

/-! Helper lemmas about association lists and the star map. -/

lemma alookup_isSome_iff {β : Type} (k : String) (m : List (String × β)) :
    (alookup k m).isSome ↔ k ∈ m.map Prod.fst := by
  induction m with
  | nil => simp [alookup]
  | cons e rest ih =>
    simp only [alookup, List.map_cons, List.mem_cons]
    by_cases h : e.1 = k
    · rw [if_pos h]
      simp [h]
    · rw [if_neg h]
      have h2 : ¬(k = e.1) := fun hk => h hk.symm
      simp [ih, h2]

lemma mem_keys_buildStarMap (stars : List Repository) (n : String) :
    n ∈ (buildStarMap stars).map Prod.fst ↔ n ∈ stars.map Repository.name := by
  induction stars with
  | nil => simp [buildStarMap]
  | cons star rest ih =>
    simp only [buildStarMap, List.map_cons, List.mem_cons]
    by_cases h : (alookup star.name (buildStarMap rest)).isSome
    · rw [if_pos h]
      constructor
      · intro hm
        exact Or.inr (ih.mp hm)
      · rintro (he | hm)
        · rw [he]
          exact (alookup_isSome_iff _ _).mp h
        · exact ih.mpr hm
    · rw [if_neg h]
      simp only [List.map_cons, List.mem_cons]
      rw [ih]

lemma keys_buildStarMap_nodup (stars : List Repository) :
    ((buildStarMap stars).map Prod.fst).Nodup := by
  induction stars with
  | nil => simp [buildStarMap]
  | cons star rest ih =>
    simp only [buildStarMap]
    by_cases h : (alookup star.name (buildStarMap rest)).isSome
    · rw [if_pos h]
      exact ih
    · rw [if_neg h]
      simp only [List.map_cons, List.nodup_cons]
      exact ⟨fun hm => h ((alookup_isSome_iff _ _).mpr hm), ih⟩

lemma except_ok_of_ne_error {α : Type} {x : Except Unit α}
    (h : x ≠ .error ()) : ∃ a, x = .ok a := by
  cases x with
  | ok a => exact ⟨a, rfl⟩
  | error e => cases e; exact absurd rfl h

/-- C3, amended.  The record created for a repo has its title equal to the
repo's name and its owner and URL fields populated, but its two freshness
fields are always absent: `new_data` supplies no date property, so the stored
release and commit dates of a fresh record are `none` regardless of the
repo's currently observed signals; they are only populated by later freshness
patches. -/
theorem c3_created_record_fields (name url owner : String) (s : MirrorState) :
    (createPage s (new_data name url owner)).2.title = name ∧
    alookup "owner" (createPage s (new_data name url owner)).2.props =
      some (PropertyValue.text owner) ∧
    alookup "release" (createPage s (new_data name url owner)).2.props =
      some (PropertyValue.url (some url)) ∧
    notionLastUpdate (createPage s (new_data name url owner)).2 = .ok none ∧
    notionCommit (createPage s (new_data name url owner)).2 = none := by
  exact ⟨rfl, rfl, rfl, rfl, rfl⟩

/-- C5, amended.  The Source Collection Fetcher itself does not deduplicate:
`get_stars` may return several repos with the same name when pages overlap.
Deduplication by name happens in the name-keyed star map `main` builds from
the fetched list: its keys are pairwise distinct and cover exactly the
fetched names. -/
theorem c5_star_map_dedupes (pages : List (List Repository)) :
    ((buildStarMap (get_stars pages)).map Prod.fst).Nodup ∧
    (∀ n, n ∈ (buildStarMap (get_stars pages)).map Prod.fst ↔
      n ∈ (get_stars pages).map Repository.name) := by
  exact ⟨keys_buildStarMap_nodup _, fun n => mem_keys_buildStarMap _ n⟩

/-- C8.  The diff is exact and keyed on byte-for-byte string equality of
names and titles: `update_stars` is precisely the fetched stars whose name
matches no database page title, and `delete_stars` is precisely the database
pages whose title matches no star name. -/
theorem c8_diff_exact (stars : List Repository) (database : List NotionPage) :
    (∀ s, s ∈ update_stars stars database ↔
      s ∈ stars ∧ s.name ∉ database.map (fun page => page.title)) ∧
    (∀ p, p ∈ delete_stars stars database ↔
      p ∈ database ∧ p.title ∉ stars.map Repository.name) := by
  constructor
  · intro s
    simp [update_stars, List.mem_filter]
  · intro p
    simp only [delete_stars, List.mem_filter, decide_eq_true_eq]
    rw [mem_keys_buildStarMap]

/-- C7.  A per-repo lookup error is absorbed: an erroring release or commit
fetch yields an absent observed signal rather than a propagated failure, and
the freshness step for such a record completes without any failure (and, both
observed signals being absent, without a patch), so the loop goes on with the
rest of the pass. -/
theorem c7_lookup_errors_absorbed (env : Env)
    (m : List (String × Repository)) (s : MirrorState) (page : NotionPage)
    (repo : Repository)
    (hlk : alookup page.title m = some repo)
    (hrel : env.releases repo.owner page.title = .error ())
    (hcom : env.commits repo.owner page.title = .error ())
    (hsch : (alookup "上次release" page.props).isSome) :
    observedRelease (env.releases repo.owner page.title) = .ok none ∧
    observedCommit (env.commits repo.owner page.title) = .ok none ∧
    freshnessStep env m s page = .ok (s, []) := by
  obtain ⟨v, hv⟩ := Option.isSome_iff_exists.mp hsch
  have hnl : ∃ w, notionLastUpdate page = .ok w := by
    unfold notionLastUpdate
    rw [hv]
    cases v <;> exact ⟨_, rfl⟩
  obtain ⟨w, hw⟩ := hnl
  refine ⟨by rw [hrel]; rfl, by rw [hcom]; rfl, ?_⟩
  simp only [freshnessStep, hlk, hrel, hcom, hw, observedRelease, observedCommit,
    ite_self, Option.isNone_none, Bool.and_self, if_true]

/-- C4, amended.  An archive rejected by the service with a non-success
status is only reported and does not abort the batch: as long as no archive
request fails at the transport level, every page of the batch has its archive
request made, in order, whatever mix of success and error statuses the
service answers. -/
theorem c4_archive_batch_continues (env : Env) (pages : List NotionPage) :
    ∀ s : MirrorState, (∀ p ∈ pages, env.archiveOutcome p.id ≠ .transportError) →
      ∃ s2, archive_repo env s pages =
        .ok (s2, pages.map (fun p => MutCall.archive p.id)) := by
  induction pages with
  | nil => exact fun s _ => ⟨s, rfl⟩
  | cons page rest ih =>
    intro s h
    have hp := h page (List.mem_cons_self _ _)
    have hr := fun p hp2 => h p (List.mem_cons_of_mem _ hp2)
    cases ho : env.archiveOutcome page.id with
    | transportError => exact absurd ho hp
    | httpError =>
      obtain ⟨s2, h2⟩ := ih s hr
      exact ⟨s2, by simp only [archive_repo, ho, h2, List.map_cons]⟩
    | success =>
      obtain ⟨s2, h2⟩ := ih (archiveOnePage s page.id) hr
      exact ⟨s2, by simp only [archive_repo, ho, h2, List.map_cons]⟩

/-- Witness for the C4-amended theorem: a two-page archive batch whose first
request is rejected with an error status still sends the second request. -/
theorem c4_witness :
    (∀ p ∈ wPagesC4a, wEnvC4a.archiveOutcome p.id ≠ HttpOutcome.transportError) ∧
    (∃ s2, archive_repo wEnvC4a wStateC4a wPagesC4a =
      .ok (s2, wPagesC4a.map (fun p => MutCall.archive p.id))) := by
  exact ⟨by decide, c4_archive_batch_continues wEnvC4a wPagesC4a wStateC4a (by decide)⟩

/-- Witness for the C7 theorem: a record whose release and commit lookups
both error is processed without failure and without a patch. -/
theorem c7_witness :
    alookup pageB0.title wMapC7 = some repoB ∧
    (alookup "上次release" pageB0.props).isSome = true ∧
    freshnessStep wEnvC7 wMapC7 exStateEmpty pageB0 = .ok (exStateEmpty, []) := by
  refine ⟨by decide, by decide, ?_⟩
  exact (c7_lookup_errors_absorbed wEnvC7 wMapC7 exStateEmpty pageB0 repoB
    (by decide) rfl rfl (by decide)).2.2

lemma freshnessLoop_error_of_missing (env : Env)
    (m : List (String × Repository)) :
    ∀ (pages : List NotionPage) (s : MirrorState),
      (∃ p ∈ pages, alookup p.title m = none) →
      freshnessLoop env m s pages = .error () := by
  intro pages
  induction pages with
  | nil =>
    rintro s ⟨p, hp, -⟩
    cases hp
  | cons page rest ih =>
    rintro s ⟨p, hp, hmiss⟩
    rcases List.mem_cons.mp hp with he | ht
    · subst he
      simp only [freshnessLoop, freshnessStep, hmiss]
    · cases hstep : freshnessStep env m s page with
      | error e =>
        cases e
        simp only [freshnessLoop, hstep]
      | ok pr =>
        obtain ⟨s2, calls⟩ := pr
        simp only [freshnessLoop, hstep]
        rw [ih s2 ⟨p, ht, hmiss⟩]

/-- C10.  Implicit precondition of the freshness-check loop: when the
post-reconciliation database still contains a live page whose title is not
among the fetched star names (for example because its archival failed), the
loop's `star_map.get(&name).unwrap()` panics, aborting the whole run rather
than skipping the record. -/
theorem c10_missing_star_aborts (env : Env) (s0 : MirrorState)
    (pages : List (List Repository)) (s1 s2 : MirrorState)
    (cc ac : List MutCall) (page : NotionPage)
    (hdb : env.dbOk = true)
    (hsp : env.starPages = .ok pages)
    (hadd : add_repo env s0
      (update_stars (get_stars pages) (queryDatabase s0)) = .ok (s1, cc))
    (harc : archive_repo env s1
      (delete_stars (get_stars pages) (queryDatabase s0)) = .ok (s2, ac))
    (hmem : page ∈ queryDatabase s2)
    (hmiss : alookup page.title (buildStarMap (get_stars pages)) = none) :
    runMain env s0 = .error () := by
  simp only [runMain, hdb, hsp, hadd, harc]
  rw [freshnessLoop_error_of_missing env _ _ s2 ⟨page, hmem, hmiss⟩]

/-! Helper lemmas for the no-clobber property (C6). -/

lemma alookup_append_single {β : Type} (k : String) (kv : String × β)
    (props : List (String × β)) (hne : k ≠ kv.1) :
    alookup k (props ++ [kv]) = alookup k props := by
  induction props with
  | nil =>
    simp only [List.nil_append, alookup]
    rw [if_neg (fun h => hne h.symm)]
  | cons e rest ih =>
    simp only [List.cons_append, alookup]
    by_cases h : e.1 = k
    · rw [if_pos h, if_pos h]
    · rw [if_neg h, if_neg h]
      exact ih

lemma alookup_map_replace {β : Type} (k : String) (kv : String × β)
    (props : List (String × β)) (hne : k ≠ kv.1) :
    alookup k (props.map (fun e => if e.1 = kv.1 then kv else e)) =
      alookup k props := by
  induction props with
  | nil => rfl
  | cons e rest ih =>
    simp only [List.map_cons, alookup]
    by_cases h : e.1 = kv.1
    · rw [if_pos h]
      rw [if_neg (fun hh : kv.1 = k => hne hh.symm)]
      rw [if_neg (fun hh : e.1 = k => hne (by rw [← hh]; exact h))]
      exact ih
    · rw [if_neg h]
      by_cases h2 : e.1 = k
      · rw [if_pos h2, if_pos h2]
      · rw [if_neg h2, if_neg h2, ih]

lemma alookup_upsert_ne {β : Type} (k : String) (kv : String × β)
    (props : List (String × β)) (hne : k ≠ kv.1) :
    alookup k (upsertProp props kv) = alookup k props := by
  unfold upsertProp
  by_cases h : (alookup kv.1 props).isSome
  · rw [if_pos h]
    exact alookup_map_replace k kv props hne
  · rw [if_neg h]
    exact alookup_append_single k kv props hne

lemma update_date_calls_sound (env : Env) (s : MirrorState) (id : Nat)
    (rd cd : Option Date) (s2 : MirrorState) (cs : List MutCall)
    (h : update_date env s id rd cd = .ok (s2, cs)) :
    ∀ c ∈ cs, patchCallSound c := by
  unfold update_date at h
  by_cases hb : (updateDateBody rd cd).isEmpty
  · rw [if_pos hb] at h
    simp only [Except.ok.injEq, Prod.mk.injEq] at h
    obtain ⟨-, h2⟩ := h
    subst h2
    intro c hc
    cases hc
  · rw [if_neg hb] at h
    have hsound : patchCallSound (MutCall.patch id (updateDateBody rd cd)) := by
      refine ⟨rd, cd, rfl, ?_⟩
      rintro ⟨rfl, rfl⟩
      exact hb rfl
    cases ho : env.patchOutcome id with
    | transportError =>
      rw [ho] at h
      exact Except.noConfusion h
    | httpError =>
      rw [ho] at h
      simp only [Except.ok.injEq, Prod.mk.injEq] at h
      obtain ⟨-, h2⟩ := h
      subst h2
      intro c hc
      rw [List.mem_singleton] at hc
      subst hc
      exact hsound
    | success =>
      rw [ho] at h
      simp only [Except.ok.injEq, Prod.mk.injEq] at h
      obtain ⟨-, h2⟩ := h
      subst h2
      intro c hc
      rw [List.mem_singleton] at hc
      subst hc
      exact hsound

lemma freshnessStep_calls_sound (env : Env) (m : List (String × Repository))
    (s : MirrorState) (page : NotionPage) (s2 : MirrorState)
    (cs : List MutCall) (h : freshnessStep env m s page = .ok (s2, cs)) :
    ∀ c ∈ cs, patchCallSound c := by
  unfold freshnessStep at h
  cases hlk : alookup page.title m with
  | none =>
    simp only [hlk] at h
    exact Except.noConfusion h
  | some repo =>
    simp only [hlk] at h
    cases hrel : observedRelease (env.releases repo.owner page.title) with
    | error e =>
      simp only [hrel] at h
      exact Except.noConfusion h
    | ok lastupdate =>
      simp only [hrel] at h
      cases hnl : notionLastUpdate page with
      | error e =>
        simp only [hnl] at h
        exact Except.noConfusion h
      | ok nlu =>
        simp only [hnl] at h
        cases hcm : observedCommit (env.commits repo.owner page.title) with
        | error e =>
          simp only [hcm] at h
          exact Except.noConfusion h
        | ok commit =>
          simp only [hcm] at h
          by_cases hcond :
              ((if lastupdate ≠ nlu then lastupdate else none).isNone &&
                (if commit ≠ notionCommit page then commit else none).isNone) = true
          · rw [if_pos hcond] at h
            simp only [Except.ok.injEq, Prod.mk.injEq] at h
            obtain ⟨-, h2⟩ := h
            subst h2
            intro c hc
            cases hc
          · rw [if_neg hcond] at h
            exact update_date_calls_sound _ _ _ _ _ _ _ h

lemma freshnessLoop_calls_sound (env : Env) (m : List (String × Repository)) :
    ∀ (pages : List NotionPage) (s s3 : MirrorState) (cs : List MutCall)
      (ck : List String),
      freshnessLoop env m s pages = .ok (s3, cs, ck) →
        ∀ c ∈ cs, patchCallSound c := by
  intro pages
  induction pages with
  | nil =>
    intro s s3 cs ck h c hc
    simp only [freshnessLoop, Except.ok.injEq, Prod.mk.injEq] at h
    obtain ⟨-, h2, -⟩ := h
    subst h2
    cases hc
  | cons page rest ih =>
    intro s s3 cs ck h c hc
    simp only [freshnessLoop] at h
    cases hstep : freshnessStep env m s page with
    | error e =>
      simp only [hstep] at h
      exact Except.noConfusion h
    | ok pr =>
      obtain ⟨sa, calls⟩ := pr
      simp only [hstep] at h
      cases hrest : freshnessLoop env m sa rest with
      | error e =>
        simp only [hrest] at h
        exact Except.noConfusion h
      | ok pr2 =>
        obtain ⟨sb, moreCalls, ck2⟩ := pr2
        simp only [hrest] at h
        simp only [Except.ok.injEq, Prod.mk.injEq] at h
        obtain ⟨-, h2, -⟩ := h
        subst h2
        rcases List.mem_append.mp hc with hc1 | hc2
        · exact freshnessStep_calls_sound _ _ _ _ _ _ hstep c hc1
        · exact ih _ _ _ _ hrest c hc2

lemma add_repo_calls_sound (env : Env) :
    ∀ (l : List Repository) (s s2 : MirrorState) (cs : List MutCall),
      add_repo env s l = .ok (s2, cs) → ∀ c ∈ cs, patchCallSound c := by
  intro l
  induction l with
  | nil =>
    intro s s2 cs h c hc
    simp only [add_repo, Except.ok.injEq, Prod.mk.injEq] at h
    obtain ⟨-, h2⟩ := h
    subst h2
    cases hc
  | cons star rest ih =>
    intro s s2 cs h c hc
    simp only [add_repo] at h
    cases hnd : newDataCall env s star.name star.html_url star.owner with
    | error e =>
      simp only [hnd] at h
      exact Except.noConfusion h
    | ok pr =>
      obtain ⟨sa, pg⟩ := pr
      simp only [hnd] at h
      cases hrec : add_repo env sa rest with
      | error e =>
        simp only [hrec] at h
        exact Except.noConfusion h
      | ok pr2 =>
        obtain ⟨sb, cs3⟩ := pr2
        simp only [hrec] at h
        simp only [Except.ok.injEq, Prod.mk.injEq] at h
        obtain ⟨-, h2⟩ := h
        subst h2
        rcases List.mem_cons.mp hc with rfl | hm
        · trivial
        · exact ih _ _ _ hrec c hm

lemma archive_repo_calls_sound (env : Env) :
    ∀ (l : List NotionPage) (s s2 : MirrorState) (cs : List MutCall),
      archive_repo env s l = .ok (s2, cs) → ∀ c ∈ cs, patchCallSound c := by
  intro l
  induction l with
  | nil =>
    intro s s2 cs h c hc
    simp only [archive_repo, Except.ok.injEq, Prod.mk.injEq] at h
    obtain ⟨-, h2⟩ := h
    subst h2
    cases hc
  | cons page rest ih =>
    intro s s2 cs h c hc
    simp only [archive_repo] at h
    cases ho : env.archiveOutcome page.id with
    | transportError =>
      simp only [ho] at h
      exact Except.noConfusion h
    | httpError =>
      simp only [ho] at h
      cases hrec : archive_repo env s rest with
      | error e =>
        simp only [hrec] at h
        exact Except.noConfusion h
      | ok pr =>
        obtain ⟨sb, cs3⟩ := pr
        simp only [hrec] at h
        simp only [Except.ok.injEq, Prod.mk.injEq] at h
        obtain ⟨-, h2⟩ := h
        subst h2
        rcases List.mem_cons.mp hc with rfl | hm
        · trivial
        · exact ih _ _ _ hrec c hm
    | success =>
      simp only [ho] at h
      cases hrec : archive_repo env (archiveOnePage s page.id) rest with
      | error e =>
        simp only [hrec] at h
        exact Except.noConfusion h
      | ok pr =>
        obtain ⟨sb, cs3⟩ := pr
        simp only [hrec] at h
        simp only [Except.ok.injEq, Prod.mk.injEq] at h
        obtain ⟨-, h2⟩ := h
        subst h2
        rcases List.mem_cons.mp hc with rfl | hm
        · trivial
        · exact ih _ _ _ hrec c hm

lemma runMain_calls_sound (env : Env) (s0 : MirrorState) (r : RunResult)
    (h : runMain env s0 = .ok r) : ∀ c ∈ r.calls, patchCallSound c := by
  unfold runMain at h
  cases hdb : env.dbOk with
  | false =>
    simp only [hdb] at h
    exact Except.noConfusion h
  | true =>
    simp only [hdb] at h
    cases hsp : env.starPages with
    | error e =>
      simp only [hsp] at h
      exact Except.noConfusion h
    | ok pages =>
      simp only [hsp] at h
      cases hadd : add_repo env s0
          (update_stars (get_stars pages) (queryDatabase s0)) with
      | error e =>
        simp only [hadd] at h
        exact Except.noConfusion h
      | ok pr1 =>
        obtain ⟨s1, createCalls⟩ := pr1
        simp only [hadd] at h
        cases harc : archive_repo env s1
            (delete_stars (get_stars pages) (queryDatabase s0)) with
        | error e =>
          simp only [harc] at h
          exact Except.noConfusion h
        | ok pr2 =>
          obtain ⟨s2, archiveCalls⟩ := pr2
          simp only [harc] at h
          cases hlp : freshnessLoop env (buildStarMap (get_stars pages)) s2
              (queryDatabase s2) with
          | error e =>
            simp only [hlp] at h
            exact Except.noConfusion h
          | ok pr3 =>
            obtain ⟨s3, patchCalls, checked⟩ := pr3
            simp only [hlp] at h
            injection h with h1
            subst h1
            intro c hc
            rcases List.mem_append.mp hc with hc12 | hc3
            · rcases List.mem_append.mp hc12 with hc1 | hc2
              · exact add_repo_calls_sound _ _ _ _ _ hadd c hc1
              · exact archive_repo_calls_sound _ _ _ _ _ harc c hc2
            · exact freshnessLoop_calls_sound _ _ _ _ _ _ _ hlp c hc3

/-- C6.  No clobber: every patch request any run sends carries exactly the
body `update_date` builds for a pair of deltas that are not both absent — the
patch is never invoked with both fields absent, and its body contains only
the supplied fields.  Moreover a patch with only a commit delta leaves the
stored `上次release` property unchanged, and a patch with only a release
delta leaves the stored `上次commit` property unchanged. -/
theorem c6_no_clobber :
    (∀ (env : Env) (s0 : MirrorState) (r : RunResult) (id : Nat)
        (body : List (String × PropertyValue)),
      runMain env s0 = .ok r → MutCall.patch id body ∈ r.calls →
        ∃ rd cd : Option Date,
          body = updateDateBody rd cd ∧ ¬(rd = none ∧ cd = none)) ∧
    (∀ (c : Date) (props : List (String × PropertyValue)),
      alookup "上次release" (applyPatchBody props (updateDateBody none (some c))) =
        alookup "上次release" props) ∧
    (∀ (rdate : Date) (props : List (String × PropertyValue)),
      alookup "上次commit" (applyPatchBody props (updateDateBody (some rdate) none)) =
        alookup "上次commit" props) := by
  refine ⟨?_, ?_, ?_⟩
  · intro env s0 r id body h hm
    exact runMain_calls_sound env s0 r h (MutCall.patch id body) hm
  · intro c props
    have hne : ("上次release" : String) ≠ "上次Commit" := by decide
    exact alookup_upsert_ne "上次release"
      ("上次Commit", PropertyValue.date (some c)) props hne
  · intro rdate props
    have hne : ("上次commit" : String) ≠ "上次release" := by decide
    exact alookup_upsert_ne "上次commit"
      ("上次release", PropertyValue.date (some rdate)) props hne

/-- Witness for the C6 theorem: a concrete run that sends one patch call,
whose body is the commit-only `update_date` body. -/
theorem c6_witness :
    runMain wEnvC6 wStateC6 = .ok wResC6 ∧
    (∃ rd cd : Option Date,
      wBodyC6 = updateDateBody rd cd ∧ ¬(rd = none ∧ cd = none)) := by
  refine ⟨by decide, ?_⟩
  exact c6_no_clobber.1 wEnvC6 wStateC6 wResC6 0 wBodyC6 (by decide) (by decide)

/-! Helper lemmas characterising the reconciliation state after a fully
successful create batch and archive batch (for C2 and C9). -/

lemma pageOf_new_data_title (n : Nat) (name url owner : String) :
    (pageOf n (new_data name url owner)).title = name := rfl

lemma pageOf_new_data_schema (n : Nat) (name url owner : String) :
    (alookup "上次release" (pageOf n (new_data name url owner)).props).isSome =
      true := rfl

lemma add_repo_ok (env : Env) :
    ∀ (l : List Repository) (s : MirrorState),
      (∀ r ∈ l, env.createOutcome r.name = true) →
      add_repo env s l =
        .ok (addPagesState s l, l.map (fun r => MutCall.create r.name)) := by
  intro l
  induction l with
  | nil => intro s _; rfl
  | cons star rest ih =>
    intro s h
    have hstar := h star (List.mem_cons_self _ _)
    simp only [add_repo, newDataCall, hstar, createPage, List.map_cons]
    rw [ih _ (fun r hr => h r (List.mem_cons_of_mem _ hr))]
    rfl

lemma addPagesState_spec :
    ∀ (l : List Repository) (s : MirrorState),
      (addPagesState s l).pages = s.pages ++ newPagesFrom s.nextId l ∧
      (addPagesState s l).nextId = s.nextId + l.length := by
  intro l
  induction l with
  | nil =>
    intro s
    exact ⟨(List.append_nil _).symm, rfl⟩
  | cons star rest ih =>
    intro s
    obtain ⟨h1, h2⟩ :=
      ih (createPage s (new_data star.name star.html_url star.owner)).1
    constructor
    · simp only [addPagesState]
      rw [h1]
      simp only [createPage, newPagesFrom]
      rw [List.append_assoc]
      rfl
    · simp only [addPagesState]
      rw [h2]
      simp only [createPage, List.length_cons]
      omega

lemma newPagesFrom_map_title :
    ∀ (l : List Repository) (n : Nat),
      (newPagesFrom n l).map (fun p => p.title) = l.map Repository.name := by
  intro l
  induction l with
  | nil => intro n; rfl
  | cons star rest ih =>
    intro n
    simp only [newPagesFrom, List.map_cons, pageOf_new_data_title]
    rw [ih]

lemma mem_newPagesFrom :
    ∀ (l : List Repository) (n : Nat) (p : NotionPage), p ∈ newPagesFrom n l →
      p.archived = false ∧ n ≤ p.id ∧ p.title ∈ l.map Repository.name ∧
        (alookup "上次release" p.props).isSome := by
  intro l
  induction l with
  | nil =>
    intro n p hp
    cases hp
  | cons star rest ih =>
    intro n p hp
    rcases List.mem_cons.mp hp with rfl | hm
    · refine ⟨rfl, Nat.le_refl n, ?_, ?_⟩
      · rw [pageOf_new_data_title]
        exact List.mem_cons_self _ _
      · exact Option.isSome_iff_exists.mpr ⟨_, rfl⟩
    · obtain ⟨h1, h2, h3, h4⟩ := ih (n + 1) p hm
      exact ⟨h1, by omega, List.mem_cons_of_mem _ h3, h4⟩

lemma archive_repo_ok (env : Env) :
    ∀ (l : List NotionPage) (s : MirrorState),
      (∀ p ∈ l, env.archiveOutcome p.id = .success) →
      archive_repo env s l =
        .ok (foldArchive s (l.map (fun p => p.id)),
          l.map (fun p => MutCall.archive p.id)) := by
  intro l
  induction l with
  | nil => intro s _; rfl
  | cons page rest ih =>
    intro s h
    have hp := h page (List.mem_cons_self _ _)
    simp only [archive_repo, hp, List.map_cons]
    rw [ih _ (fun p hm => h p (List.mem_cons_of_mem _ hm))]
    rfl

lemma archCond_comp (i : Nat) (rest : List Nat) (p : NotionPage) :
    (fun q => if q.id ∈ rest then { q with archived := true } else q)
      (if p.id = i then { p with archived := true } else p) =
    (if p.id ∈ i :: rest then { p with archived := true } else p) := by
  dsimp only
  by_cases hpi : p.id = i
  · rw [if_pos hpi, if_pos (List.mem_cons.mpr (Or.inl hpi))]
    by_cases hm : p.id ∈ rest
    · rw [if_pos (show ({ p with archived := true } : NotionPage).id ∈ rest from hm)]
    · rw [if_neg (show ({ p with archived := true } : NotionPage).id ∉ rest from hm)]
  · rw [if_neg hpi]
    by_cases hm : p.id ∈ rest
    · rw [if_pos hm, if_pos (List.mem_cons.mpr (Or.inr hm))]
    · rw [if_neg hm, if_neg (fun hc => (List.mem_cons.mp hc).elim hpi hm)]

lemma foldArchive_spec :
    ∀ (ids : List Nat) (s : MirrorState),
      (foldArchive s ids).pages = s.pages.map
        (fun p => if p.id ∈ ids then { p with archived := true } else p) ∧
      (foldArchive s ids).nextId = s.nextId := by
  intro ids
  induction ids with
  | nil =>
    intro s
    constructor
    · simp [foldArchive]
    · rfl
  | cons i rest ih =>
    intro s
    obtain ⟨h1, h2⟩ := ih (archiveOnePage s i)
    constructor
    · simp only [foldArchive]
      rw [h1]
      simp only [archiveOnePage]
      rw [List.map_map]
      exact List.map_congr_left (fun p _ => archCond_comp i rest p)
    · simp only [foldArchive]
      rw [h2]
      rfl

lemma eq_of_mem_nodup_map_id :
    ∀ (l : List NotionPage), (l.map (fun p => p.id)).Nodup →
      ∀ p ∈ l, ∀ q ∈ l, p.id = q.id → p = q := by
  intro l
  induction l with
  | nil =>
    intro _ p hp
    cases hp
  | cons a t ih =>
    intro hids p hp q hq hpq
    simp only [List.map_cons, List.nodup_cons] at hids
    obtain ⟨hna, hnt⟩ := hids
    rcases List.mem_cons.mp hp with rfl | hp2
    · rcases List.mem_cons.mp hq with rfl | hq2
      · rfl
      · rw [hpq] at hna
        exact absurd (List.mem_map_of_mem (fun p => p.id) hq2) hna
    · rcases List.mem_cons.mp hq with rfl | hq2
      · rw [← hpq] at hna
        exact absurd (List.mem_map_of_mem (fun p => p.id) hp2) hna
      · exact ih hnt p hp2 q hq2 hpq

lemma filter_live_arch (ids : List Nat) (keys : List String) :
    ∀ (l : List NotionPage),
      (∀ p ∈ l, p.id ∈ ids ↔ (p.archived = false ∧ p.title ∉ keys)) →
      (l.map (fun p => if p.id ∈ ids then { p with archived := true } else p)).filter
          (fun p => !p.archived) =
        l.filter (fun p => decide (p.title ∈ keys) && !p.archived) := by
  intro l
  induction l with
  | nil => intro _; rfl
  | cons a t ih =>
    intro H
    have Ha := H a (List.mem_cons_self _ _)
    have Ht := fun p hp => H p (List.mem_cons_of_mem _ hp)
    simp only [List.map_cons]
    by_cases hid : a.id ∈ ids
    · obtain ⟨ha, hk⟩ := Ha.mp hid
      rw [if_pos hid]
      rw [List.filter_cons_of_neg (by simp)]
      rw [List.filter_cons_of_neg (by simp [hk])]
      exact ih Ht
    · have hcond : ¬(a.archived = false ∧ a.title ∉ keys) :=
        fun hc => hid (Ha.mpr hc)
      rw [if_neg hid]
      by_cases harch2 : a.archived = true
      · rw [List.filter_cons_of_neg (by simp [harch2])]
        rw [List.filter_cons_of_neg (by simp [harch2])]
        exact ih Ht
      · have ha : a.archived = false := by
          revert harch2
          cases a.archived <;> simp
        have hkeys : a.title ∈ keys := by
          by_contra hk
          exact hcond ⟨ha, hk⟩
        rw [List.filter_cons_of_pos (by simp [ha])]
        rw [List.filter_cons_of_pos (by simp [ha, hkeys])]
        rw [ih Ht]

lemma queryDatabase_after (s0 : MirrorState) (stars : List Repository)
    (hnodup : (s0.pages.map (fun p => p.id)).Nodup)
    (hbound : ∀ p ∈ s0.pages, p.id < s0.nextId) :
    queryDatabase (foldArchive
        (addPagesState s0 (update_stars stars (queryDatabase s0)))
        ((delete_stars stars (queryDatabase s0)).map (fun p => p.id))) =
      (queryDatabase s0).filter (fun p =>
          decide (p.title ∈ (buildStarMap stars).map Prod.fst)) ++
        newPagesFrom s0.nextId (update_stars stars (queryDatabase s0)) := by
  have hdel_sub : ∀ q ∈ delete_stars stars (queryDatabase s0),
      q ∈ s0.pages ∧ q.archived = false ∧
        q.title ∉ (buildStarMap stars).map Prod.fst := by
    intro q hq
    have h1 := List.mem_filter.mp hq
    have h2 := List.mem_filter.mp h1.1
    refine ⟨h2.1, ?_, ?_⟩
    · simpa using h2.2
    · simpa using h1.2
  have H : ∀ p ∈ s0.pages,
      (p.id ∈ (delete_stars stars (queryDatabase s0)).map (fun q => q.id) ↔
        (p.archived = false ∧
          p.title ∉ (buildStarMap stars).map Prod.fst)) := by
    intro p hp
    constructor
    · intro hmem
      obtain ⟨q, hq, hqid⟩ := List.mem_map.mp hmem
      obtain ⟨hq0, hqarch, hqk⟩ := hdel_sub q hq
      have hqp : q = p := eq_of_mem_nodup_map_id s0.pages hnodup q hq0 p hp hqid
      rw [← hqp]
      exact ⟨hqarch, hqk⟩
    · rintro ⟨harch, hk⟩
      have hpdb : p ∈ queryDatabase s0 :=
        List.mem_filter.mpr ⟨hp, by simp [harch]⟩
      have hpdel : p ∈ delete_stars stars (queryDatabase s0) :=
        List.mem_filter.mpr ⟨hpdb, by simpa using hk⟩
      exact List.mem_map_of_mem (fun q => q.id) hpdel
  have hnewfix : ∀ p ∈ newPagesFrom s0.nextId
      (update_stars stars (queryDatabase s0)),
      (if p.id ∈ (delete_stars stars (queryDatabase s0)).map (fun q => q.id)
        then { p with archived := true } else p) = p := by
    intro p hp
    obtain ⟨-, hle, -, -⟩ := mem_newPagesFrom _ _ p hp
    refine if_neg ?_
    intro hmem
    obtain ⟨q, hq, hqid⟩ := List.mem_map.mp hmem
    obtain ⟨hq0, -, -⟩ := hdel_sub q hq
    have := hbound q hq0
    omega
  obtain ⟨hfp, -⟩ := foldArchive_spec
    ((delete_stars stars (queryDatabase s0)).map (fun p => p.id))
    (addPagesState s0 (update_stars stars (queryDatabase s0)))
  obtain ⟨hap, -⟩ :=
    addPagesState_spec (update_stars stars (queryDatabase s0)) s0
  have hq1 : queryDatabase (foldArchive
      (addPagesState s0 (update_stars stars (queryDatabase s0)))
      ((delete_stars stars (queryDatabase s0)).map (fun p => p.id))) =
      ((foldArchive (addPagesState s0 (update_stars stars (queryDatabase s0)))
        ((delete_stars stars (queryDatabase s0)).map (fun p => p.id))).pages).filter
        (fun p => !p.archived) := rfl
  rw [hq1, hfp, hap, List.map_append, List.filter_append]
  have hnewlive : ((newPagesFrom s0.nextId
      (update_stars stars (queryDatabase s0))).map
      (fun p => if p.id ∈ (delete_stars stars (queryDatabase s0)).map (fun q => q.id)
        then { p with archived := true } else p)).filter (fun p => !p.archived) =
      newPagesFrom s0.nextId (update_stars stars (queryDatabase s0)) := by
    rw [List.map_congr_left hnewfix, List.map_id']
    rw [List.filter_eq_self]
    intro p hp
    obtain ⟨h1, -, -, -⟩ := mem_newPagesFrom _ _ p hp
    simp [h1]
  rw [hnewlive]
  rw [filter_live_arch _ _ s0.pages H]
  have hold : s0.pages.filter (fun p =>
      decide (p.title ∈ (buildStarMap stars).map Prod.fst) && !p.archived) =
      (queryDatabase s0).filter (fun p =>
        decide (p.title ∈ (buildStarMap stars).map Prod.fst)) := by
    rw [show queryDatabase s0 = s0.pages.filter (fun p => !p.archived) from rfl]
    rw [List.filter_filter]
  rw [hold]

lemma update_date_ok (env : Env) (s : MirrorState) (id : Nat)
    (rd cd : Option Date) (hp : env.patchOutcome id ≠ .transportError) :
    ∃ s2 cs, update_date env s id rd cd = .ok (s2, cs) := by
  unfold update_date
  by_cases hb : (updateDateBody rd cd).isEmpty
  · rw [if_pos hb]
    exact ⟨s, [], rfl⟩
  · rw [if_neg hb]
    cases ho : env.patchOutcome id with
    | transportError => exact absurd ho hp
    | httpError => exact ⟨s, _, rfl⟩
    | success => exact ⟨_, _, rfl⟩

lemma freshnessStep_ok (env : Env) (m : List (String × Repository))
    (s : MirrorState) (page : NotionPage)
    (hrel : ∀ o n, observedRelease (env.releases o n) ≠ .error ())
    (hcom : ∀ o n, observedCommit (env.commits o n) ≠ .error ())
    (hpatch : ∀ i, env.patchOutcome i ≠ .transportError)
    (hlk : (alookup page.title m).isSome)
    (hsch : (alookup "上次release" page.props).isSome) :
    ∃ s2 cs, freshnessStep env m s page = .ok (s2, cs) := by
  obtain ⟨repo, hr⟩ := Option.isSome_iff_exists.mp hlk
  obtain ⟨lastupdate, hlu⟩ := except_ok_of_ne_error (hrel repo.owner page.title)
  obtain ⟨v, hv⟩ := Option.isSome_iff_exists.mp hsch
  have hnl : ∃ w, notionLastUpdate page = .ok w := by
    unfold notionLastUpdate
    rw [hv]
    cases v <;> exact ⟨_, rfl⟩
  obtain ⟨nlu, hw⟩ := hnl
  obtain ⟨commit, hcm⟩ := except_ok_of_ne_error (hcom repo.owner page.title)
  unfold freshnessStep
  simp only [hr, hlu, hw, hcm]
  by_cases hcond : ((if lastupdate ≠ nlu then lastupdate else none).isNone &&
      (if commit ≠ notionCommit page then commit else none).isNone) = true
  · rw [if_pos hcond]
    exact ⟨s, [], rfl⟩
  · rw [if_neg hcond]
    exact update_date_ok env s page.id _ _ (hpatch page.id)

lemma freshnessLoop_ok (env : Env) (m : List (String × Repository))
    (hrel : ∀ o n, observedRelease (env.releases o n) ≠ .error ())
    (hcom : ∀ o n, observedCommit (env.commits o n) ≠ .error ())
    (hpatch : ∀ i, env.patchOutcome i ≠ .transportError) :
    ∀ (pgs : List NotionPage) (s : MirrorState),
      (∀ p ∈ pgs, (alookup p.title m).isSome ∧
        (alookup "上次release" p.props).isSome) →
      ∃ s3 cs, freshnessLoop env m s pgs =
        .ok (s3, cs, pgs.map (fun p => p.title)) := by
  intro pgs
  induction pgs with
  | nil =>
    intro s _
    exact ⟨s, [], rfl⟩
  | cons page rest ih =>
    intro s H
    obtain ⟨hlk, hsch⟩ := H page (List.mem_cons_self _ _)
    obtain ⟨s2, cs2, hstep⟩ :=
      freshnessStep_ok env m s page hrel hcom hpatch hlk hsch
    obtain ⟨s3, cs3, hrest⟩ := ih s2 (fun p hp => H p (List.mem_cons_of_mem _ hp))
    refine ⟨s3, cs2 ++ cs3, ?_⟩
    simp only [freshnessLoop, hstep, hrest, List.map_cons]

lemma runMain_ok_spec (env : Env) (s0 : MirrorState)
    (pages : List (List Repository))
    (hdb : env.dbOk = true)
    (hsp : env.starPages = .ok pages)
    (hnodup : (s0.pages.map (fun p => p.id)).Nodup)
    (hbound : ∀ p ∈ s0.pages, p.id < s0.nextId)
    (hschema : ∀ p ∈ s0.pages, (alookup "上次release" p.props).isSome)
    (hrel : ∀ o n, observedRelease (env.releases o n) ≠ .error ())
    (hcom : ∀ o n, observedCommit (env.commits o n) ≠ .error ())
    (hcreate : ∀ r ∈ update_stars (get_stars pages) (queryDatabase s0),
      env.createOutcome r.name = true)
    (harcho : ∀ p ∈ delete_stars (get_stars pages) (queryDatabase s0),
      env.archiveOutcome p.id = .success)
    (hpatch : ∀ i, env.patchOutcome i ≠ .transportError) :
    ∃ r, runMain env s0 = .ok r ∧
      r.checked = ((queryDatabase s0).filter (fun p =>
          decide (p.title ∈ (buildStarMap (get_stars pages)).map Prod.fst))).map
            (fun p => p.title) ++
        (update_stars (get_stars pages) (queryDatabase s0)).map
          (fun star => star.name) := by
  have hadd := add_repo_ok env
    (update_stars (get_stars pages) (queryDatabase s0)) s0 hcreate
  have harc := archive_repo_ok env
    (delete_stars (get_stars pages) (queryDatabase s0))
    (addPagesState s0 (update_stars (get_stars pages) (queryDatabase s0))) harcho
  have hq := queryDatabase_after s0 (get_stars pages) hnodup hbound
  have Hloop : ∀ p ∈ queryDatabase (foldArchive
      (addPagesState s0 (update_stars (get_stars pages) (queryDatabase s0)))
      ((delete_stars (get_stars pages) (queryDatabase s0)).map (fun p => p.id))),
      (alookup p.title (buildStarMap (get_stars pages))).isSome ∧
      (alookup "上次release" p.props).isSome := by
    rw [hq]
    intro p hp
    rcases List.mem_append.mp hp with holdm | hnewm
    · have h1 := List.mem_filter.mp holdm
      have hs0 : p ∈ s0.pages := (List.mem_filter.mp h1.1).1
      refine ⟨(alookup_isSome_iff _ _).mpr ?_, hschema p hs0⟩
      simpa using h1.2
    · obtain ⟨-, -, htitle, hsch⟩ := mem_newPagesFrom _ _ p hnewm
      refine ⟨(alookup_isSome_iff _ _).mpr ?_, hsch⟩
      rw [mem_keys_buildStarMap]
      obtain ⟨star, hstar, hname⟩ := List.mem_map.mp htitle
      have hstar2 : star ∈ get_stars pages := (List.mem_filter.mp hstar).1
      exact hname ▸ List.mem_map_of_mem Repository.name hstar2
  obtain ⟨s3, cs, hloop⟩ := freshnessLoop_ok env (buildStarMap (get_stars pages))
    hrel hcom hpatch
    (queryDatabase (foldArchive
      (addPagesState s0 (update_stars (get_stars pages) (queryDatabase s0)))
      ((delete_stars (get_stars pages) (queryDatabase s0)).map (fun p => p.id))))
    (foldArchive
      (addPagesState s0 (update_stars (get_stars pages) (queryDatabase s0)))
      ((delete_stars (get_stars pages) (queryDatabase s0)).map (fun p => p.id)))
    Hloop
  refine ⟨RunResult.mk s3
      ((update_stars (get_stars pages) (queryDatabase s0)).map
          (fun r => MutCall.create r.name) ++
        (delete_stars (get_stars pages) (queryDatabase s0)).map
          (fun p => MutCall.archive p.id) ++ cs)
      ((queryDatabase (foldArchive
        (addPagesState s0 (update_stars (get_stars pages) (queryDatabase s0)))
        ((delete_stars (get_stars pages) (queryDatabase s0)).map
          (fun p => p.id)))).map (fun p => p.title)), ?_, ?_⟩
  · unfold runMain
    simp only [hdb, hsp, hadd, harc, hloop]
  · dsimp only
    rw [hq, List.map_append, newPagesFrom_map_title]

/-- C2, amended.  The freshness-check set is not `mirror \ toArchive`: the
loop iterates the re-fetched post-reconciliation database, so it checks the
pre-existing mirror records minus those archived this run PLUS the records
created this run, in that order.  For mirror `{A, B}` and stars `{B, C}` the
run performs `create(C)`, `archive(A)` and freshness checks on `B` and `C`. -/
theorem c2_checked_is_surviving_plus_created (env : Env) (s0 : MirrorState)
    (pages : List (List Repository))
    (hdb : env.dbOk = true)
    (hsp : env.starPages = .ok pages)
    (hnodup : (s0.pages.map (fun p => p.id)).Nodup)
    (hbound : ∀ p ∈ s0.pages, p.id < s0.nextId)
    (hschema : ∀ p ∈ s0.pages, (alookup "上次release" p.props).isSome)
    (hrel : ∀ o n, observedRelease (env.releases o n) ≠ .error ())
    (hcom : ∀ o n, observedCommit (env.commits o n) ≠ .error ())
    (hcreate : ∀ r ∈ update_stars (get_stars pages) (queryDatabase s0),
      env.createOutcome r.name = true)
    (harcho : ∀ p ∈ delete_stars (get_stars pages) (queryDatabase s0),
      env.archiveOutcome p.id = .success)
    (hpatch : ∀ i, env.patchOutcome i ≠ .transportError) :
    ∃ r, runMain env s0 = .ok r ∧
      r.checked = ((queryDatabase s0).filter (fun p =>
          decide (p ∉ delete_stars (get_stars pages) (queryDatabase s0)))).map
            (fun p => p.title) ++
        (update_stars (get_stars pages) (queryDatabase s0)).map
          (fun star => star.name) := by
  obtain ⟨r, h1, h2⟩ := runMain_ok_spec env s0 pages hdb hsp hnodup hbound
    hschema hrel hcom hcreate harcho hpatch
  refine ⟨r, h1, ?_⟩
  rw [h2]
  have hfc : (queryDatabase s0).filter (fun p =>
      decide (p.title ∈ (buildStarMap (get_stars pages)).map Prod.fst)) =
      (queryDatabase s0).filter (fun p =>
        decide (p ∉ delete_stars (get_stars pages) (queryDatabase s0))) := by
    apply List.filter_congr
    intro p hp
    rw [decide_eq_decide]
    constructor
    · intro hk hdel
      have h3 := (List.mem_filter.mp hdel).2
      simp only [decide_eq_true_eq] at h3
      exact h3 hk
    · intro hnd
      by_contra hk
      exact hnd (List.mem_filter.mpr ⟨hp, by simpa using hk⟩)
  rw [hfc]

/-- Witness for the C2-amended theorem: mirror `{A, B}` (ids 0 and 1), stars
`{B, C}`; the run succeeds and checks the surviving `B` then the created
`C`. -/
theorem c2_witness :
    ∃ r, runMain wEnvC2a wStateC2a = .ok r ∧
      r.checked = ((queryDatabase wStateC2a).filter (fun p =>
          decide (p ∉ delete_stars (get_stars [[repoB, repoC]])
            (queryDatabase wStateC2a)))).map (fun p => p.title) ++
        (update_stars (get_stars [[repoB, repoC]])
          (queryDatabase wStateC2a)).map (fun star => star.name) := by
  exact c2_checked_is_surviving_plus_created wEnvC2a wStateC2a [[repoB, repoC]]
    rfl rfl (by decide) (by decide) (by decide)
    (fun o n h => Except.noConfusion h) (fun o n h => Except.noConfusion h)
    (fun r _ => rfl) (fun p _ => rfl) (fun i h => HttpOutcome.noConfusion h)

/-- C9, amended.  The run completes with exit status 0 whenever both
collection fetches succeed, every create and archive succeeds, the per-record
date properties and star pairings are well formed, and no patch fails at the
transport level — in particular even when patch requests are rejected by the
service with error statuses (they are only logged).  But a non-zero exit is
not limited to fetch failures: a failed create, a transport-level
archive/patch failure, or a live record with no paired star also aborts the
process (see the counterexample and C10). -/
theorem c9_completed_pass_exits_zero (env : Env) (s0 : MirrorState)
    (pages : List (List Repository))
    (hdb : env.dbOk = true)
    (hsp : env.starPages = .ok pages)
    (hnodup : (s0.pages.map (fun p => p.id)).Nodup)
    (hbound : ∀ p ∈ s0.pages, p.id < s0.nextId)
    (hschema : ∀ p ∈ s0.pages, (alookup "上次release" p.props).isSome)
    (hrel : ∀ o n, observedRelease (env.releases o n) ≠ .error ())
    (hcom : ∀ o n, observedCommit (env.commits o n) ≠ .error ())
    (hcreate : ∀ r ∈ update_stars (get_stars pages) (queryDatabase s0),
      env.createOutcome r.name = true)
    (harcho : ∀ p ∈ delete_stars (get_stars pages) (queryDatabase s0),
      env.archiveOutcome p.id = .success)
    (hpatch : ∀ i, env.patchOutcome i ≠ .transportError) :
    ∃ r, runMain env s0 = .ok r := by
  obtain ⟨r, h1, -⟩ := runMain_ok_spec env s0 pages hdb hsp hnodup hbound
    hschema hrel hcom hcreate harcho hpatch
  exact ⟨r, h1⟩

/-- Witness for the C9-amended theorem: a run whose only patch request is
rejected with an error status still completes (exit 0). -/
theorem c9_witness : ∃ r, runMain wEnvC9a wStateC9a = .ok r := by
  exact c9_completed_pass_exits_zero wEnvC9a wStateC9a [[repoB]]
    rfl rfl (by decide) (by decide) (by decide)
    (fun o n h => Except.noConfusion h) (fun o n h => Except.noConfusion h)
    (fun r _ => rfl) (fun p _ => rfl) (fun i h => HttpOutcome.noConfusion h)

/-- Witness for the C10 theorem: a run in which archiving page `X` fails with
an error status, leaving a live page whose title matches no star, aborts. -/
theorem c10_witness :
    alookup pageX1.title (buildStarMap (get_stars [[repoB]])) = none ∧
    runMain exEnvC10 exStateC10 = .error () := by
  refine ⟨by decide, ?_⟩
  exact c10_missing_star_aborts exEnvC10 exStateC10 [[repoB]] exStateC10
    exStateC10 [] [MutCall.archive 1] pageX1 rfl rfl (by decide) (by decide)
    (by decide) (by decide)

end NotionStar
